import Mathlib

/-!
Shallow embedding of `audioping` (src/main.rs): a round-trip audio latency
tester.  The capture callback (`input_data_fn`) classifies each hardware
block by peak-to-peak amplitude and drives a shared armed flag plus an
emission-start timestamp; the playback callback (`output_data_fn`) emits a
440 Hz sine while armed and stamps the emission start once per arming cycle
via compare-and-swap.  Samples (`f32` in the source) are modelled as exact
rationals; the `u64` nanosecond timestamps as naturals with explicit
wrapping subtraction where the source subtracts.
-/

/-- Shared lock-free state: `signal_active : AtomicBool`,
`signal_start : AtomicU64` (0 is the unset sentinel). -/
structure RoundTripState where
  signal_active : Bool
  signal_start : Nat
  deriving DecidableEq, Repr

/-- Wrapping `u64` subtraction, as `frame_start - signal_start` behaves in
release-mode Rust. -/
def wrapSub64 (a b : Nat) : Nat := (((a : Int) - (b : Int)) % (2 ^ 64 : Int)).toNat

/-- The per-frame scan accumulator of `input_data_fn`:
`delay_count`, `amplitude_count`, and the running `min`/`max` options. -/
structure ScanState where
  delay_count : Nat
  amplitude_count : Nat
  min? : Option ℚ
  max? : Option ℚ
  deriving DecidableEq, Repr

/-- One iteration of the scan loop in `input_data_fn` (lines 90-100):
update the running min/max with the frame's first-channel sample, bump
`amplitude_count` when `max - min > sensitivity`, and bump `delay_count`
while `amplitude_count <= 10`. -/
def scanFrame (sensitivity : ℚ) (s : ScanState) (sample : ℚ) : ScanState :=
  let mn : ℚ := match s.min? with
    | some x => min x sample
    | none => sample
  let mx : ℚ := match s.max? with
    | some x => max x sample
    | none => sample
  let ac : Nat := if mx - mn > sensitivity then s.amplitude_count + 1 else s.amplitude_count
  let dc : Nat := if ac ≤ 10 then s.delay_count + 1 else s.delay_count
  ⟨dc, ac, some mn, some mx⟩

/-- The whole scan over the first-channel samples of a block. -/
def scanBlock (sensitivity : ℚ) (samples : List ℚ) : ScanState :=
  samples.foldl (scanFrame sensitivity) ⟨0, 0, none, none⟩

/-- Helper for first-channel extraction: `skip` counts the interleaved
samples still to drop before the next frame's first sample. -/
def firstChannelAux (chm1 : Nat) : Nat → List ℚ → List ℚ
  | _, [] => []
  | 0, a :: l => a :: firstChannelAux chm1 chm1 l
  | k + 1, _ :: l => firstChannelAux chm1 k l

/-- First-channel extraction: `data.chunks(channels)` followed by
`frame[0]` on each chunk (each chunk is non-empty and starts at a stride of
`channels`). -/
def firstChannelSamples (channels : Nat) (data : List ℚ) : List ℚ :=
  firstChannelAux (channels - 1) 0 data

/-- Result of one capture-callback invocation: the updated shared state and
the optional `(delay_ms, amplitude)` report printed on detection. -/
structure InputResult where
  state : RoundTripState
  report : Option (ℚ × ℚ)
  deriving DecidableEq, Repr

/-- The capture callback `input_data_fn` (lines 85-115): scan the block,
then (loud) disarm and report if previously armed, (silent) arm and reset
the sentinel if previously disarmed, (ambiguous) do nothing. -/
def input_data_fn (sensitivity sample_rate : ℚ) (channels : Nat)
    (st : RoundTripState) (frame_start : Nat) (data : List ℚ) : InputResult :=
  let sc := scanBlock sensitivity (firstChannelSamples channels data)
  let amplitude : ℚ := sc.max?.getD 0 - sc.min?.getD 0
  if sc.amplitude_count > 10 then
    let was_active := st.signal_active
    let st1 : RoundTripState := ⟨false, st.signal_start⟩
    if was_active then
      let delay_ms : ℚ := (wrapSub64 frame_start st.signal_start : ℚ) / 1000
        + (sc.delay_count : ℚ) * 1000 / sample_rate
      ⟨st1, some (delay_ms, amplitude)⟩
    else
      ⟨st1, none⟩
  else if sc.amplitude_count = 0 then
    let was_active := st.signal_active
    let st1 : RoundTripState := ⟨true, st.signal_start⟩
    if was_active then ⟨st1, none⟩ else ⟨⟨true, 0⟩, none⟩
  else
    ⟨st, none⟩

/-- The atomic `signal_active.swap(true, SeqCst)` step of the silent
branch (line 110), returning the new state and the previous flag. -/
def armStep (s : RoundTripState) : RoundTripState × Bool :=
  (⟨true, s.signal_start⟩, s.signal_active)

/-- The atomic `signal_start.store(0, SeqCst)` step of the silent branch
(line 112). -/
def resetStep (s : RoundTripState) : RoundTripState :=
  ⟨s.signal_active, 0⟩

/-- The atomic `signal_start.compare_exchange(0, now_ns, ...)` of the
playback callback (lines 132-137), returning the new state and whether the
exchange succeeded. -/
def casStamp (now_ns : Nat) (s : RoundTripState) : RoundTripState × Bool :=
  if s.signal_start = 0 then (⟨s.signal_active, now_ns⟩, true) else (s, false)

/-- The `f32` value of `std::f32::consts::PI`, exactly. -/
def pi32 : ℚ := 13176795 / 4194304

/-- Nonnegative floating remainder, as `%` behaves on the nonnegative
clock values of the oscillator. -/
def qmod (a b : ℚ) : ℚ := a - b * (⌊a / b⌋ : ℤ)

/-- The oscillator clock: `sample_clock` starts at 0 and is advanced by
`(sample_clock + 1.0) % sample_rate` before each frame is produced. -/
def sampleClock (sample_rate : ℚ) : Nat → ℚ
  | 0 => 0
  | n + 1 => qmod (sampleClock sample_rate n + 1) sample_rate

/-- The value produced by `next_value` for frame `n` (0-based): the sine of
`sample_clock * 440.0 * 2.0 * PI / sample_rate` after the clock advance.
`sinFn` abstracts the `f32::sin` primitive. -/
def nextValue (sinFn : ℚ → ℚ) (sample_rate : ℚ) (n : Nat) : ℚ :=
  sinFn (sampleClock sample_rate (n + 1) * 440 * 2 * pi32 / sample_rate)

/-- The playback callback `output_data_fn` (lines 118-146): when armed,
fill every channel of frame `n` with `next_value() * volume` and attempt
the emission-start compare-and-swap; when disarmed, write silence.  The
block is `numFrames` frames of `channels` samples; returns the filled
block and the updated shared state. -/
def output_data_fn (sinFn : ℚ → ℚ) (sample_rate volume : ℚ) (channels : Nat)
    (st : RoundTripState) (now_ns : Nat) (numFrames : Nat) :
    List (List ℚ) × RoundTripState :=
  if st.signal_active then
    ((List.range numFrames).map fun n =>
      List.replicate channels (nextValue sinFn sample_rate n * volume),
     (casStamp now_ns st).1)
  else
    ((List.range numFrames).map fun _ => List.replicate channels (0 : ℚ), st)

/-- Volume normalization at startup (line 27):
`parse.max(0).min(100) / 100`. -/
def normalizeVolume (v : ℚ) : ℚ := min (max v 0) 100 / 100

/-- Specification-level running peak-to-peak amplitude of a prefix:
`max - min` of the samples seen so far (0 for the empty prefix). -/
def ptp : List ℚ → ℚ
  | [] => 0
  | a :: t => t.foldl max a - t.foldl min a

/-- Specification-level activity count: the number of frames at which the
running `max - min` over the block so far exceeds `sensitivity`. -/
def specActivityCount (sensitivity : ℚ) (samples : List ℚ) : Nat :=
  (List.range samples.length).countP fun i =>
    decide (sensitivity < ptp (samples.take (i + 1)))

/-- Specification-level pre-threshold count: the number of frames scanned
while the activity count (including the frame's own update) was still at
most 10. -/
def specPreCount (sensitivity : ℚ) (samples : List ℚ) : Nat :=
  (List.range samples.length).countP fun i =>
    decide (specActivityCount sensitivity (samples.take (i + 1)) ≤ 10)

/-- Running min of a nonempty list, `none` for the empty list, matching the
scan's `Option` accumulator. -/
def foldMin : List ℚ → Option ℚ
  | [] => none
  | a :: t => some (t.foldl min a)

/-- Running max of a nonempty list, `none` for the empty list. -/
def foldMax : List ℚ → Option ℚ
  | [] => none
  | a :: t => some (t.foldl max a)

/-! ## Scan characterization lemmas -/

lemma scanBlock_concat (sens : ℚ) (l : List ℚ) (a : ℚ) :
    scanBlock sens (l ++ [a]) = scanFrame sens (scanBlock sens l) a := by
  simp [scanBlock, List.foldl_append]

lemma foldl_scanFrame_minmax (sens : ℚ) (l : List ℚ) (dc ac : Nat) (m M : ℚ) :
    (l.foldl (scanFrame sens) ⟨dc, ac, some m, some M⟩).min? = some (l.foldl min m) ∧
    (l.foldl (scanFrame sens) ⟨dc, ac, some m, some M⟩).max? = some (l.foldl max M) := by
  induction l generalizing dc ac m M with
  | nil => simp
  | cons a t ih =>
    simp only [List.foldl_cons, scanFrame]
    exact ih _ _ _ _

lemma scanBlock_min (sens : ℚ) (l : List ℚ) : (scanBlock sens l).min? = foldMin l := by
  cases l with
  | nil => rfl
  | cons a t =>
    simp only [scanBlock, List.foldl_cons, scanFrame, foldMin]
    exact (foldl_scanFrame_minmax sens t _ _ a a).1

lemma scanBlock_max (sens : ℚ) (l : List ℚ) : (scanBlock sens l).max? = foldMax l := by
  cases l with
  | nil => rfl
  | cons a t =>
    simp only [scanBlock, List.foldl_cons, scanFrame, foldMax]
    exact (foldl_scanFrame_minmax sens t _ _ a a).2

lemma foldMin_concat (l : List ℚ) (a m : ℚ) (hm : foldMin l = some m) :
    foldMin (l ++ [a]) = some (min m a) := by
  cases l with
  | nil => simp [foldMin] at hm
  | cons b t =>
    simp only [foldMin, Option.some.injEq] at hm
    simp [foldMin, List.foldl_append, hm]

lemma foldMax_concat (l : List ℚ) (a M : ℚ) (hM : foldMax l = some M) :
    foldMax (l ++ [a]) = some (max M a) := by
  cases l with
  | nil => simp [foldMax] at hM
  | cons b t =>
    simp only [foldMax, Option.some.injEq] at hM
    simp [foldMax, List.foldl_append, hM]

lemma ptp_concat (l : List ℚ) (a m M : ℚ) (hm : foldMin l = some m)
    (hM : foldMax l = some M) : ptp (l ++ [a]) = max M a - min m a := by
  cases l with
  | nil => simp [foldMin] at hm
  | cons b t =>
    simp only [foldMin, Option.some.injEq] at hm
    simp only [foldMax, Option.some.injEq] at hM
    simp [ptp, List.foldl_append, hm, hM]

lemma specActivityCount_concat (sens : ℚ) (l : List ℚ) (a : ℚ) :
    specActivityCount sens (l ++ [a]) =
      specActivityCount sens l + (if sens < ptp (l ++ [a]) then 1 else 0) := by
  unfold specActivityCount
  rw [List.length_append, List.length_singleton, List.range_succ, List.countP_append]
  congr 1
  · refine List.countP_congr fun i hi => ?_
    rw [List.mem_range] at hi
    rw [List.take_append_of_le_length (by omega)]
  · have htake : List.take (l.length + 1) (l ++ [a]) = l ++ [a] := by
      have hlen : (l ++ [a]).length = l.length + 1 := by simp
      rw [← hlen, List.take_length]
    simp only [List.countP_cons, List.countP_nil, htake, Nat.zero_add]
    by_cases h : sens < ptp (l ++ [a]) <;> simp [h]

lemma specPreCount_concat (sens : ℚ) (l : List ℚ) (a : ℚ) :
    specPreCount sens (l ++ [a]) =
      specPreCount sens l
        + (if specActivityCount sens (l ++ [a]) ≤ 10 then 1 else 0) := by
  unfold specPreCount
  rw [List.length_append, List.length_singleton, List.range_succ, List.countP_append]
  congr 1
  · refine List.countP_congr fun i hi => ?_
    rw [List.mem_range] at hi
    rw [List.take_append_of_le_length (by omega)]
  · have htake : List.take (l.length + 1) (l ++ [a]) = l ++ [a] := by
      have hlen : (l ++ [a]).length = l.length + 1 := by simp
      rw [← hlen, List.take_length]
    simp only [List.countP_cons, List.countP_nil, htake, Nat.zero_add]
    by_cases h : specActivityCount sens (l ++ [a]) ≤ 10 <;> simp [h]

lemma scanBlock_eq_spec (sens : ℚ) (l : List ℚ) :
    scanBlock sens l =
      ⟨specPreCount sens l, specActivityCount sens l, foldMin l, foldMax l⟩ := by
  induction l using List.reverseRecOn with
  | nil => rfl
  | append_singleton l a ih =>
    rw [scanBlock_concat, ih]
    rcases hl : l with _ | ⟨b, t⟩
    · have h1 : List.range 1 = [0] := rfl
      simp only [List.nil_append, scanFrame, specActivityCount, specPreCount,
        foldMin, foldMax, List.length_singleton, h1, List.countP_cons,
        List.countP_nil, List.take_succ_cons, List.take_zero, ptp,
        List.foldl_nil, sub_self, gt_iff_lt]
      by_cases h : sens < (0 : ℚ) <;> simp [h]
    · rw [← hl]
      have hm : foldMin l = some (t.foldl min b) := by rw [hl]; rfl
      have hM : foldMax l = some (t.foldl max b) := by rw [hl]; rfl
      have hptp := ptp_concat l a _ _ hm hM
      have hac := specActivityCount_concat sens l a
      have hdc := specPreCount_concat sens l a
      rw [hptp] at hac
      have hac2 : (if sens < max (t.foldl max b) a - min (t.foldl min b) a then
            specActivityCount sens l + 1 else specActivityCount sens l)
          = specActivityCount sens (l ++ [a]) := by
        rw [hac]
        by_cases h : sens < max (t.foldl max b) a - min (t.foldl min b) a <;>
          simp [h]
      simp only [scanFrame, hm, hM, foldMin_concat l a _ hm,
        foldMax_concat l a _ hM, gt_iff_lt, hac2, ScanState.mk.injEq]
      refine ⟨?_, trivial, trivial, trivial⟩
      rw [hdc]
      by_cases h2 : specActivityCount sens (l ++ [a]) ≤ 10 <;> simp [h2]

/-! ## Timestamp arithmetic and branch lemmas -/

lemma wrapSub64_eq (a b : Nat) (hle : b ≤ a) (hlt : a < 2 ^ 64) :
    (wrapSub64 a b : ℚ) = (a : ℚ) - (b : ℚ) := by
  have hpow : ((2 : Int) ^ 64) = 18446744073709551616 := by norm_num
  have hlt2 : (a : Int) < 18446744073709551616 := by
    have : (2 : Nat) ^ 64 = 18446744073709551616 := by norm_num
    exact_mod_cast this ▸ hlt
  have h : wrapSub64 a b = a - b := by
    unfold wrapSub64
    rw [hpow, Int.emod_eq_of_lt (by omega) (by omega)]
    omega
  rw [h, Nat.cast_sub hle]

lemma input_loud_armed (sens sr : ℚ) (ch : Nat) (st : RoundTripState)
    (fs : Nat) (data : List ℚ)
    (hact : st.signal_active = true)
    (hloud : 10 < (scanBlock sens (firstChannelSamples ch data)).amplitude_count) :
    input_data_fn sens sr ch st fs data =
      ⟨⟨false, st.signal_start⟩,
        some ((wrapSub64 fs st.signal_start : ℚ) / 1000
          + ((scanBlock sens (firstChannelSamples ch data)).delay_count : ℚ)
            * 1000 / sr,
          (scanBlock sens (firstChannelSamples ch data)).max?.getD 0
            - (scanBlock sens (firstChannelSamples ch data)).min?.getD 0)⟩ := by
  obtain ⟨act, start⟩ := st
  have h2 : act = true := hact
  subst h2
  simp [input_data_fn, hloud]

lemma input_loud_disarmed (sens sr : ℚ) (ch : Nat) (st : RoundTripState)
    (fs : Nat) (data : List ℚ)
    (hact : st.signal_active = false)
    (hloud : 10 < (scanBlock sens (firstChannelSamples ch data)).amplitude_count) :
    input_data_fn sens sr ch st fs data = ⟨st, none⟩ := by
  obtain ⟨act, start⟩ := st
  have h2 : act = false := hact
  subst h2
  simp [input_data_fn, hloud]

lemma input_silent_armed (sens sr : ℚ) (ch : Nat) (st : RoundTripState)
    (fs : Nat) (data : List ℚ)
    (hact : st.signal_active = true)
    (hsil : (scanBlock sens (firstChannelSamples ch data)).amplitude_count = 0) :
    input_data_fn sens sr ch st fs data = ⟨st, none⟩ := by
  obtain ⟨act, start⟩ := st
  have h2 : act = true := hact
  subst h2
  simp [input_data_fn, hsil]

lemma input_silent_disarmed (sens sr : ℚ) (ch : Nat) (st : RoundTripState)
    (fs : Nat) (data : List ℚ)
    (hact : st.signal_active = false)
    (hsil : (scanBlock sens (firstChannelSamples ch data)).amplitude_count = 0) :
    input_data_fn sens sr ch st fs data = ⟨⟨true, 0⟩, none⟩ := by
  obtain ⟨act, start⟩ := st
  have h2 : act = false := hact
  subst h2
  simp [input_data_fn, hsil]

lemma input_ambiguous (sens sr : ℚ) (ch : Nat) (st : RoundTripState)
    (fs : Nat) (data : List ℚ)
    (hlo : 1 ≤ (scanBlock sens (firstChannelSamples ch data)).amplitude_count)
    (hhi : (scanBlock sens (firstChannelSamples ch data)).amplitude_count ≤ 10) :
    input_data_fn sens sr ch st fs data = ⟨st, none⟩ := by
  simp only [input_data_fn, gt_iff_lt]
  rw [if_neg (by omega), if_neg (by omega)]

lemma ptp_eq_getD (l : List ℚ) :
    ptp l = (foldMax l).getD 0 - (foldMin l).getD 0 := by
  cases l <;> simp [ptp, foldMin, foldMax]

/-- A block whose first-channel samples produce exactly 12 activity frames
(loud) with peak-to-peak amplitude 2. -/
def loudBlock : List ℚ := 0 :: List.replicate 12 2

/-- A block whose first-channel samples produce exactly 10 activity frames
(the not-loud boundary). -/
def amb10Block : List ℚ := 0 :: List.replicate 10 2

/-- A block whose first-channel samples produce exactly 5 activity frames
(ambiguous). -/
def amb5Block : List ℚ := 0 :: List.replicate 5 2

lemma firstChannelAux_zero (l : List ℚ) : firstChannelAux 0 0 l = l := by
  induction l with
  | nil => rfl
  | cons a t ih => simp [firstChannelAux, ih]

lemma firstChannelSamples_one (l : List ℚ) : firstChannelSamples 1 l = l := by
  unfold firstChannelSamples
  simpa using firstChannelAux_zero l

lemma scan_loudBlock : scanBlock 1 loudBlock = ⟨11, 12, some 0, some 2⟩ := by
  norm_num [scanBlock, loudBlock, List.replicate, scanFrame, min_def, max_def]

lemma spec_loudBlock :
    specPreCount 1 loudBlock = 11 ∧ specActivityCount 1 loudBlock = 12 ∧
      foldMin loudBlock = some 0 ∧ foldMax loudBlock = some 2 := by
  have h := (scanBlock_eq_spec 1 loudBlock).symm.trans scan_loudBlock
  rw [ScanState.mk.injEq] at h
  exact h

lemma ptp_loudBlock : ptp loudBlock = 2 := by
  rw [ptp_eq_getD, spec_loudBlock.2.2.1, spec_loudBlock.2.2.2]
  norm_num

/-! ## Claim theorems -/

/-- C1: for every capture block judged loud (activity count above 10) while
the state is armed and stamped, the reported delay equals
`(block_start_ns - emission_start_ns) / 1000.0` plus
`pre_threshold_count * 1000.0 / sample_rate`, where the pre-threshold count
is the number of frames scanned while the activity count was still at most
10 and the activity count counts the frames at which the running
`max - min` over the block so far exceeds the sensitivity. -/
theorem detector_delay_formula (sens sr : ℚ) (ch : Nat) (st : RoundTripState)
    (fs : Nat) (data : List ℚ)
    (hact : st.signal_active = true)
    (hle : st.signal_start ≤ fs) (hlt : fs < 2 ^ 64)
    (hloud : 10 < specActivityCount sens (firstChannelSamples ch data)) :
    (input_data_fn sens sr ch st fs data).report =
      some (((fs : ℚ) - (st.signal_start : ℚ)) / 1000
        + (specPreCount sens (firstChannelSamples ch data) : ℚ) * 1000 / sr,
        ptp (firstChannelSamples ch data)) := by
  have hsc := scanBlock_eq_spec sens (firstChannelSamples ch data)
  have hloud2 : 10 < (scanBlock sens (firstChannelSamples ch data)).amplitude_count := by
    rw [hsc]; exact hloud
  rw [input_loud_armed sens sr ch st fs data hact hloud2]
  rw [hsc]
  simp only [InputResult.mk.injEq]
  rw [wrapSub64_eq fs st.signal_start hle hlt, ptp_eq_getD]

/-- C1 witness: a concrete armed, stamped state and a loud block. -/
theorem detector_delay_formula_witness :
    (⟨true, 1000000⟩ : RoundTripState).signal_active = true ∧
    (1000000 : Nat) ≤ 2000000 ∧ (2000000 : Nat) < 2 ^ 64 ∧
    10 < specActivityCount 1 (firstChannelSamples 1 loudBlock) ∧
    (input_data_fn 1 1000 1 ⟨true, 1000000⟩ 2000000 loudBlock).report =
      some (((2000000 : ℚ) - ((1000000 : Nat) : ℚ)) / 1000
        + (specPreCount 1 (firstChannelSamples 1 loudBlock) : ℚ) * 1000 / 1000,
        ptp (firstChannelSamples 1 loudBlock)) :=
  ⟨rfl, by decide, by decide,
    by rw [firstChannelSamples_one, spec_loudBlock.2.1]; decide,
    detector_delay_formula 1 1000 1 ⟨true, 1000000⟩ 2000000 loudBlock rfl
      (by decide) (by decide)
      (by rw [firstChannelSamples_one, spec_loudBlock.2.1]; decide)⟩

/-- C2: the coarse term of the reported delay divides the nanosecond
difference by 1000, not 1,000,000; at a difference of exactly
1,000,000 ns (one millisecond) and a frame correction of 11 ms, the code
reports 1011, while a true milliseconds conversion gives 12. -/
theorem delay_unit_mismatch :
    (input_data_fn 1 1000 1 ⟨true, 1000000⟩ 2000000 loudBlock).report
      = some (1011, 2) ∧
    ((2000000 : ℚ) - 1000000) / 1000000 + 11 * 1000 / 1000 = 12 := by
  constructor
  · have hloud2 :
        10 < (scanBlock 1 (firstChannelSamples 1 loudBlock)).amplitude_count := by
      rw [firstChannelSamples_one, scan_loudBlock]
      decide
    rw [input_loud_armed 1 1000 1 ⟨true, 1000000⟩ 2000000 loudBlock rfl hloud2]
    rw [firstChannelSamples_one, scan_loudBlock]
    have hw : wrapSub64 2000000 1000000 = 1000000 := by decide
    simp only [hw]
    norm_num
  · norm_num

lemma scan_amb10Block : scanBlock 1 amb10Block = ⟨11, 10, some 0, some 2⟩ := by
  norm_num [scanBlock, amb10Block, List.replicate, scanFrame, min_def, max_def]

lemma spec_amb10Block :
    specPreCount 1 amb10Block = 11 ∧ specActivityCount 1 amb10Block = 10 ∧
      foldMin amb10Block = some 0 ∧ foldMax amb10Block = some 2 := by
  have h := (scanBlock_eq_spec 1 amb10Block).symm.trans scan_amb10Block
  rw [ScanState.mk.injEq] at h
  exact h

lemma scan_amb5Block : scanBlock 1 amb5Block = ⟨6, 5, some 0, some 2⟩ := by
  norm_num [scanBlock, amb5Block, List.replicate, scanFrame, min_def, max_def]

lemma spec_amb5Block :
    specPreCount 1 amb5Block = 6 ∧ specActivityCount 1 amb5Block = 5 ∧
      foldMin amb5Block = some 0 ∧ foldMax amb5Block = some 2 := by
  have h := (scanBlock_eq_spec 1 amb5Block).symm.trans scan_amb5Block
  rw [ScanState.mk.injEq] at h
  exact h

/-- C3 counterexample: a loud block processed while armed with stamp 5
disarms and emits a report, yet `signal_start` stays 5 — the disarm does
not reset the emission start to the sentinel 0. -/
theorem disarm_keeps_stamp_cex :
    (input_data_fn 1 1000 1 ⟨true, 5⟩ 100 loudBlock).state.signal_active = false ∧
    ((input_data_fn 1 1000 1 ⟨true, 5⟩ 100 loudBlock).report).isSome = true ∧
    (input_data_fn 1 1000 1 ⟨true, 5⟩ 100 loudBlock).state.signal_start = 5 ∧
    (5 : Nat) ≠ 0 := by
  have hloud2 :
      10 < (scanBlock 1 (firstChannelSamples 1 loudBlock)).amplitude_count := by
    rw [firstChannelSamples_one, scan_loudBlock]
    decide
  rw [input_loud_armed 1 1000 1 ⟨true, 5⟩ 100 loudBlock rfl hloud2]
  exact ⟨rfl, rfl, rfl, by decide⟩

/-- C3 amended: when a loud block is detected while armed, the state lands
in Disarmed with `emission_start_ns` unchanged (the stale stamp is kept,
not reset to the sentinel 0); the sentinel is restored only by the next
silent block, which newly arms the state, so the next cycle still starts
from the unset state. -/
theorem disarm_then_rearm (sens sr : ℚ) (ch : Nat) (st : RoundTripState)
    (fs fs2 : Nat) (data data2 : List ℚ)
    (hact : st.signal_active = true)
    (hloud : 10 < specActivityCount sens (firstChannelSamples ch data))
    (hsil : specActivityCount sens (firstChannelSamples ch data2) = 0) :
    ((input_data_fn sens sr ch st fs data).state.signal_active = false) ∧
    ((input_data_fn sens sr ch st fs data).state.signal_start = st.signal_start) ∧
    ((input_data_fn sens sr ch st fs data).report.isSome = true) ∧
    input_data_fn sens sr ch (input_data_fn sens sr ch st fs data).state fs2 data2
      = ⟨⟨true, 0⟩, none⟩ := by
  have hloud2 :
      10 < (scanBlock sens (firstChannelSamples ch data)).amplitude_count := by
    rw [scanBlock_eq_spec]
    exact hloud
  have hsil2 :
      (scanBlock sens (firstChannelSamples ch data2)).amplitude_count = 0 := by
    rw [scanBlock_eq_spec]
    exact hsil
  rw [input_loud_armed sens sr ch st fs data hact hloud2]
  exact ⟨rfl, rfl, rfl, input_silent_disarmed sens sr ch _ fs2 data2 rfl hsil2⟩

/-- C3 amended witness: a concrete loud-then-silent cycle. -/
theorem disarm_then_rearm_witness :
    (⟨true, 7⟩ : RoundTripState).signal_active = true ∧
    10 < specActivityCount 1 (firstChannelSamples 1 loudBlock) ∧
    specActivityCount 1 (firstChannelSamples 1 ([] : List ℚ)) = 0 ∧
    input_data_fn 1 1000 1
        (input_data_fn 1 1000 1 ⟨true, 7⟩ 100 loudBlock).state 200 ([] : List ℚ)
      = ⟨⟨true, 0⟩, none⟩ :=
  ⟨rfl, by rw [firstChannelSamples_one, spec_loudBlock.2.1]; decide, by decide,
    (disarm_then_rearm 1 1000 1 ⟨true, 7⟩ 100 200 loudBlock [] rfl
      (by rw [firstChannelSamples_one, spec_loudBlock.2.1]; decide)
      (by decide)).2.2.2⟩

/-- C4 counterexample: the silent newly-arming branch performs the
`swap(true)` before the `store(0)`: in the intermediate state the armed
flag is already visible while the previous cycle's stamp 5 is still in
place, so a stamp attempt triggered by the new arming can observe the
non-zero value (its compare-and-swap fails on 5). -/
theorem arm_visible_before_reset_cex :
    armStep ⟨false, 5⟩ = (⟨true, 5⟩, false) ∧
    casStamp 7 (armStep ⟨false, 5⟩).1 = (⟨true, 5⟩, false) ∧
    (armStep ⟨false, 5⟩).1.signal_start ≠ 0 := by decide

/-- C4 amended: on a newly arming silent transition the armed flag becomes
visible before the sentinel reset; a stamp attempt in between observes the
previous cycle's non-zero value but its compare-and-swap fails and leaves
the state unchanged, so the stale value is never re-stamped; after the
reset the compare-and-swap succeeds from the sentinel. -/
theorem arm_reset_stamp_order (v now : Nat) (hv : v ≠ 0) :
    armStep ⟨false, v⟩ = (⟨true, v⟩, false) ∧
    casStamp now ⟨true, v⟩ = (⟨true, v⟩, false) ∧
    resetStep ⟨true, v⟩ = ⟨true, 0⟩ ∧
    casStamp now ⟨true, 0⟩ = (⟨true, now⟩, true) := by
  refine ⟨rfl, ?_, rfl, ?_⟩
  · simp [casStamp, hv]
  · simp [casStamp]

/-- C4 amended witness: stale stamp 5, fresh time 7. -/
theorem arm_reset_stamp_order_witness :
    (5 : Nat) ≠ 0 ∧ casStamp 7 ⟨true, 5⟩ = (⟨true, 5⟩, false) ∧
    casStamp 7 ⟨true, 0⟩ = (⟨true, 7⟩, true) :=
  ⟨by decide, (arm_reset_stamp_order 5 7 (by decide)).2.1,
    (arm_reset_stamp_order 5 7 (by decide)).2.2.2⟩

/-- C5: classification boundaries of the detector: an activity count of
exactly 10 is not loud (no disarm, no report, no state change); exactly 0
is silent (arms the state, no report); 1 through 10 inclusive causes no
state transition and no report. -/
theorem classification_boundaries (sens sr : ℚ) (ch : Nat)
    (st : RoundTripState) (fs : Nat) (data : List ℚ) :
    (specActivityCount sens (firstChannelSamples ch data) = 10 →
      input_data_fn sens sr ch st fs data = ⟨st, none⟩) ∧
    (specActivityCount sens (firstChannelSamples ch data) = 0 →
      (input_data_fn sens sr ch st fs data).state.signal_active = true ∧
      (input_data_fn sens sr ch st fs data).report = none) ∧
    (1 ≤ specActivityCount sens (firstChannelSamples ch data) →
      specActivityCount sens (firstChannelSamples ch data) ≤ 10 →
      input_data_fn sens sr ch st fs data = ⟨st, none⟩) := by
  have hample : (scanBlock sens (firstChannelSamples ch data)).amplitude_count
      = specActivityCount sens (firstChannelSamples ch data) := by
    rw [scanBlock_eq_spec]
  refine ⟨?_, ?_, ?_⟩
  · intro h10
    exact input_ambiguous sens sr ch st fs data (by rw [hample]; omega)
      (by rw [hample]; omega)
  · intro h0
    have h0b : (scanBlock sens (firstChannelSamples ch data)).amplitude_count
        = 0 := by rw [hample]; exact h0
    cases hb : st.signal_active with
    | false =>
      rw [input_silent_disarmed sens sr ch st fs data hb h0b]
      exact ⟨rfl, rfl⟩
    | true =>
      rw [input_silent_armed sens sr ch st fs data hb h0b]
      exact ⟨hb, rfl⟩
  · intro h1 h10
    exact input_ambiguous sens sr ch st fs data (by rw [hample]; omega)
      (by rw [hample]; omega)

/-- C5 witness: blocks with exactly 10, 0 and 5 activity frames. -/
theorem classification_boundaries_witness :
    specActivityCount 1 (firstChannelSamples 1 amb10Block) = 10 ∧
    input_data_fn 1 1000 1 ⟨false, 5⟩ 100 amb10Block = ⟨⟨false, 5⟩, none⟩ ∧
    ((input_data_fn 1 1000 1 ⟨false, 5⟩ 100 ([] : List ℚ)).state.signal_active
        = true ∧
      (input_data_fn 1 1000 1 ⟨false, 5⟩ 100 ([] : List ℚ)).report = none) ∧
    input_data_fn 1 1000 1 ⟨true, 5⟩ 100 amb5Block = ⟨⟨true, 5⟩, none⟩ :=
  ⟨by rw [firstChannelSamples_one, spec_amb10Block.2.1],
    (classification_boundaries 1 1000 1 ⟨false, 5⟩ 100 amb10Block).1
      (by rw [firstChannelSamples_one, spec_amb10Block.2.1]),
    (classification_boundaries 1 1000 1 ⟨false, 5⟩ 100 []).2.1 (by decide),
    (classification_boundaries 1 1000 1 ⟨true, 5⟩ 100 amb5Block).2.2
      (by rw [firstChannelSamples_one, spec_amb5Block.2.1]; decide)
      (by rw [firstChannelSamples_one, spec_amb5Block.2.1]; decide)⟩

/-- C6: `stamp_emission_start_once` is idempotent after its first success
within an arming cycle: while `emission_start_ns` is non-zero, the playback
compare-and-swap fails and every playback invocation leaves the shared
state unchanged. -/
theorem stamp_idempotent_after_success (sinFn : ℚ → ℚ) (sr vol : ℚ)
    (ch : Nat) (st : RoundTripState) (now n : Nat)
    (h : st.signal_start ≠ 0) :
    casStamp now st = (st, false) ∧
    (output_data_fn sinFn sr vol ch st now n).2 = st := by
  have hcas : casStamp now st = (st, false) := by simp [casStamp, h]
  refine ⟨hcas, ?_⟩
  unfold output_data_fn
  by_cases hb : st.signal_active = true
  · simp [hb, hcas]
  · rw [Bool.not_eq_true] at hb
    simp [hb]

/-- C6 witness: stamped state 5, playback at time 7. -/
theorem stamp_idempotent_after_success_witness :
    (⟨true, 5⟩ : RoundTripState).signal_start ≠ 0 ∧
    casStamp 7 ⟨true, 5⟩ = (⟨true, 5⟩, false) ∧
    (output_data_fn (fun _ => 0) 1000 (1 / 2) 2 ⟨true, 5⟩ 7 3).2 = ⟨true, 5⟩ :=
  ⟨by decide,
    (stamp_idempotent_after_success (fun _ => 0) 1000 (1 / 2) 2 ⟨true, 5⟩ 7 3
      (by decide)).1,
    (stamp_idempotent_after_success (fun _ => 0) 1000 (1 / 2) 2 ⟨true, 5⟩ 7 3
      (by decide)).2⟩

/-- C7: each playback invocation writes silence (all samples 0) when
disarmed; when armed it writes the 440 Hz sine value of each frame, scaled
by `volume` and replicated across all channels of the frame, so every
output sample magnitude is at most `volume`; a volume input of 50
normalizes to 1/2. -/
theorem transmitter_output (sinFn : ℚ → ℚ) (sr vol : ℚ) (ch : Nat)
    (st : RoundTripState) (now n : Nat)
    (hsin : ∀ x, |sinFn x| ≤ 1) (hvol : 0 ≤ vol) :
    (st.signal_active = false →
      (output_data_fn sinFn sr vol ch st now n).1 =
        (List.range n).map fun _ => List.replicate ch (0 : ℚ)) ∧
    (st.signal_active = true →
      (output_data_fn sinFn sr vol ch st now n).1 =
        (List.range n).map fun i =>
          List.replicate ch (nextValue sinFn sr i * vol)) ∧
    (∀ frame ∈ (output_data_fn sinFn sr vol ch st now n).1,
      ∀ s ∈ frame, |s| ≤ vol) ∧
    normalizeVolume 50 = 1 / 2 := by
  refine ⟨?_, ?_, ?_, ?_⟩
  · intro hb
    simp [output_data_fn, hb]
  · intro hb
    simp [output_data_fn, hb]
  · intro frame hf s hs
    unfold output_data_fn at hf
    by_cases hb : st.signal_active = true
    · rw [if_pos hb] at hf
      simp only [List.mem_map, List.mem_range] at hf
      obtain ⟨i, _, hfe⟩ := hf
      rw [← hfe] at hs
      have hse := List.eq_of_mem_replicate hs
      subst hse
      rw [abs_mul, abs_of_nonneg hvol]
      have h2 : |nextValue sinFn sr i| ≤ 1 := by
        unfold nextValue
        exact hsin _
      calc |nextValue sinFn sr i| * vol ≤ 1 * vol :=
            mul_le_mul_of_nonneg_right h2 hvol
        _ = vol := one_mul vol
    · rw [Bool.not_eq_true] at hb
      rw [if_neg (by rw [hb]; exact Bool.false_ne_true)] at hf
      simp only [List.mem_map, List.mem_range] at hf
      obtain ⟨i, _, hfe⟩ := hf
      rw [← hfe] at hs
      have hse := List.eq_of_mem_replicate hs
      subst hse
      simpa using hvol
  · norm_num [normalizeVolume, min_def, max_def]

/-- C7 witness: a bounded oscillator, volume 1/2, two channels, armed. -/
theorem transmitter_output_witness :
    (∀ x : ℚ, |(fun _ : ℚ => (1 : ℚ)) x| ≤ 1) ∧ (0 : ℚ) ≤ 1 / 2 ∧
    (∀ frame ∈ (output_data_fn (fun _ => 1) 48000 (1 / 2) 2 ⟨true, 0⟩ 7 2).1,
      ∀ s ∈ frame, |s| ≤ (1 / 2 : ℚ)) :=
  ⟨fun x => by norm_num, by norm_num,
    (transmitter_output (fun _ => 1) 48000 (1 / 2) 2 ⟨true, 0⟩ 7 2
      (fun x => by norm_num) (by norm_num)).2.2.1⟩

/-- C8: a loud block (activity count above 10) processed while disarmed
produces no report and leaves the shared state — in particular
`emission_start_ns` — unchanged, so a sentinel stays a sentinel. -/
theorem stray_loud_no_report (sens sr : ℚ) (ch : Nat) (st : RoundTripState)
    (fs : Nat) (data : List ℚ)
    (hact : st.signal_active = false)
    (hloud : 10 < specActivityCount sens (firstChannelSamples ch data)) :
    input_data_fn sens sr ch st fs data = ⟨st, none⟩ := by
  refine input_loud_disarmed sens sr ch st fs data hact ?_
  rw [scanBlock_eq_spec]
  exact hloud

/-- C8 witness: a stray loud block while disarmed with the sentinel in
place. -/
theorem stray_loud_no_report_witness :
    (⟨false, 0⟩ : RoundTripState).signal_active = false ∧
    10 < specActivityCount 1 (firstChannelSamples 1 loudBlock) ∧
    input_data_fn 1 1000 1 ⟨false, 0⟩ 100 loudBlock = ⟨⟨false, 0⟩, none⟩ :=
  ⟨rfl, by rw [firstChannelSamples_one, spec_loudBlock.2.1]; decide,
    stray_loud_no_report 1 1000 1 ⟨false, 0⟩ 100 loudBlock rfl
      (by rw [firstChannelSamples_one, spec_loudBlock.2.1]; decide)⟩

/-- C9: a silent block (activity count 0) processed while already armed
keeps the state armed and does not reset `emission_start_ns`; the sentinel
reset happens exactly on the silent block that performs the
disarmed-to-armed transition. -/
theorem silent_block_arming (sens sr : ℚ) (ch : Nat) (st : RoundTripState)
    (fs : Nat) (data : List ℚ)
    (hsil : specActivityCount sens (firstChannelSamples ch data) = 0) :
    (st.signal_active = true →
      input_data_fn sens sr ch st fs data = ⟨st, none⟩) ∧
    (st.signal_active = false →
      input_data_fn sens sr ch st fs data = ⟨⟨true, 0⟩, none⟩) := by
  have hsil2 :
      (scanBlock sens (firstChannelSamples ch data)).amplitude_count = 0 := by
    rw [scanBlock_eq_spec]
    exact hsil
  exact ⟨fun hb => input_silent_armed sens sr ch st fs data hb hsil2,
    fun hb => input_silent_disarmed sens sr ch st fs data hb hsil2⟩

/-- C9 witness: a silent block while armed with stamp 42 (kept), and while
disarmed (reset to the sentinel). -/
theorem silent_block_arming_witness :
    specActivityCount 1 (firstChannelSamples 1 ([] : List ℚ)) = 0 ∧
    input_data_fn 1 1000 1 ⟨true, 42⟩ 100 ([] : List ℚ)
      = ⟨⟨true, 42⟩, none⟩ ∧
    input_data_fn 1 1000 1 ⟨false, 42⟩ 100 ([] : List ℚ)
      = ⟨⟨true, 0⟩, none⟩ :=
  ⟨by decide,
    (silent_block_arming 1 1000 1 ⟨true, 42⟩ 100 [] (by decide)).1 rfl,
    (silent_block_arming 1 1000 1 ⟨false, 42⟩ 100 [] (by decide)).2 rfl⟩

/-- C10: on an empty capture block the detector is total and well-defined:
the scan yields an empty accumulator, the peak amplitude evaluates to 0,
the activity count is 0 and the silent branch is taken, so afterwards the
state is armed and no report is produced. -/
theorem empty_block_silent (sens sr : ℚ) (ch : Nat) (st : RoundTripState)
    (fs : Nat) :
    firstChannelSamples ch ([] : List ℚ) = [] ∧
    scanBlock sens (firstChannelSamples ch ([] : List ℚ)) = ⟨0, 0, none, none⟩ ∧
    (scanBlock sens (firstChannelSamples ch ([] : List ℚ))).max?.getD 0
      - (scanBlock sens (firstChannelSamples ch ([] : List ℚ))).min?.getD 0
      = 0 ∧
    specActivityCount sens (firstChannelSamples ch ([] : List ℚ)) = 0 ∧
    (input_data_fn sens sr ch st fs []).state.signal_active = true ∧
    (input_data_fn sens sr ch st fs []).report = none := by
  have h1 : firstChannelSamples ch ([] : List ℚ) = [] := rfl
  have hsil2 :
      (scanBlock sens (firstChannelSamples ch ([] : List ℚ))).amplitude_count
        = 0 := by rw [h1]; rfl
  refine ⟨h1, by rw [h1]; rfl, by rw [h1]; norm_num [scanBlock],
    by rw [h1]; rfl, ?_, ?_⟩
  · cases hb : st.signal_active with
    | false => rw [input_silent_disarmed sens sr ch st fs [] hb hsil2]
    | true => rw [input_silent_armed sens sr ch st fs [] hb hsil2]; exact hb
  · cases hb : st.signal_active with
    | false => rw [input_silent_disarmed sens sr ch st fs [] hb hsil2]
    | true => rw [input_silent_armed sens sr ch st fs [] hb hsil2]

lemma silent_branch_decomposition (sens sr : ℚ) (ch : Nat)
    (st : RoundTripState) (fs : Nat) (data : List ℚ)
    (hsil : (scanBlock sens (firstChannelSamples ch data)).amplitude_count = 0) :
    input_data_fn sens sr ch st fs data =
      ⟨if (armStep st).2 then (armStep st).1 else resetStep (armStep st).1,
        none⟩ := by
  obtain ⟨act, start⟩ := st
  cases act with
  | false =>
    rw [input_silent_disarmed sens sr ch ⟨false, start⟩ fs data rfl hsil]
    simp [armStep, resetStep]
  | true =>
    rw [input_silent_armed sens sr ch ⟨true, start⟩ fs data rfl hsil]
    simp [armStep]
